import Mathlib

/-!
# GTF Utilities filter nodes: a shallow embedding

This file embeds the filter node layer of the GTF-Utilities repository
(`gtf_nodes/filters.py`) in Lean 4 and proves properties of it.

Floating-point tensor elements are modelled by `FVal`: either NaN or an
exact numeric value (a rational).  Torch comparison semantics are kept:
`a >= b` is false whenever either side is NaN.  A grid tensor
(batch and channel flattened away, since every claim treated here is
per-slice) is a function `Fin h → Fin w → FVal`.

The implementation modules `gtf_impl.utils` and `gtf_impl.filters` are not
part of the repository snapshot; definitions drawn from them are modelled
from the specification and say so in their doc comments.  The node wrapper
code of `gtf_nodes/filters.py` is embedded directly from the source.
-/

namespace GTF

/-- A floating-point scalar: NaN, or an exact value modelled by a rational. -/
inductive FVal where
  | nan : FVal
  | val : ℚ → FVal
deriving DecidableEq

/-- Torch `>=` on floats: false whenever either operand is NaN. -/
def fge : FVal → FVal → Bool
  | FVal.val a, FVal.val b => decide (b ≤ a)
  | _, _ => false

/-- Torch two-argument max on floats (NaN-propagating, as `torch.maximum`). -/
def fmax : FVal → FVal → FVal
  | FVal.val a, FVal.val b => FVal.val (max a b)
  | _, _ => FVal.nan

/-- Torch two-argument min on floats (NaN-propagating, as `torch.minimum`). -/
def fmin : FVal → FVal → FVal
  | FVal.val a, FVal.val b => FVal.val (min a b)
  | _, _ => FVal.nan

/-- A grid tensor slice: height × width of float values. -/
def Grid (h w : ℕ) : Type := Fin h → Fin w → FVal

/-- A Python exception raised by a node function. -/
inductive PyErr where
  | unboundLocalError : String → PyErr
  | invalidArgument : String → PyErr
deriving DecidableEq

/-- Clamp an integer coordinate into `[0, n)`: edge-replicate padding. -/
def clampIdx (n : ℕ) (hn : 0 < n) (v : ℤ) : Fin n :=
  ⟨(min ((n : ℤ) - 1) (max 0 v)).toNat, by
    have h1 : (0 : ℤ) ≤ min ((n : ℤ) - 1) (max 0 v) :=
      le_min (by omega) (le_max_left 0 v)
    have h2 : min ((n : ℤ) - 1) (max 0 v) ≤ (n : ℤ) - 1 := min_le_left _ _
    omega⟩

/-- All offsets `[-r, r] × [-r, r]` of a window of side `2r+1`. -/
def windowOffsets (r : ℕ) : List (ℤ × ℤ) :=
  ((List.range (2 * r + 1)).map (fun a => (a : ℤ) - r)).flatMap
    (fun a => ((List.range (2 * r + 1)).map (fun b => (b : ℤ) - r)).map (fun b => (a, b)))

namespace FT

/-- Modelled from the spec: `patch_stat(g, radius, stat)` of
`gtf_impl.filters` (module absent from the snapshot) computes `stat` over
the window `[h-radius, h+radius] × [w-radius, w+radius]` with
edge-replicate padding.  The fold starts from the centre value, which lies
in every window, so for idempotent commutative `stat` (min, max) this is
the statistic of the whole window. -/
def patch_stat (stat : FVal → FVal → FVal) (gtf : Grid h w) (radius : ℕ) : Grid h w :=
  fun i j =>
    (windowOffsets radius).foldl
      (fun acc d =>
        stat acc (gtf (clampIdx h i.pos ((i : ℤ) + d.1)) (clampIdx w j.pos ((j : ℤ) + d.2))))
      (gtf i j)

/-- Modelled from the spec: `patch_max` of `gtf_impl.filters`
(module absent from the snapshot): sliding-window maximum. -/
def patch_max (gtf : Grid h w) (radius : ℕ) : Grid h w :=
  patch_stat fmax gtf radius

/-- Modelled from the spec: `patch_min` of `gtf_impl.filters`
(module absent from the snapshot): sliding-window minimum. -/
def patch_min (gtf : Grid h w) (radius : ℕ) : Grid h w :=
  patch_stat fmin gtf radius

/-- Modelled from the spec: `dilate(g, r) = patch_max(g, r)`
(`gtf_impl.filters` absent from the snapshot). -/
def dilate (gtf : Grid h w) (radius : ℕ) : Grid h w :=
  patch_max gtf radius

/-- Modelled from the spec: `erode(g, r) = patch_min(g, r)`
(`gtf_impl.filters` absent from the snapshot). -/
def erode (gtf : Grid h w) (radius : ℕ) : Grid h w :=
  patch_min gtf radius

/-- Modelled from the spec: `open(g, r) = dilate(erode(g, r), r)`
(`gtf_impl.filters` absent from the snapshot; `open` is a Lean keyword,
hence the name `open_op`). -/
def open_op (gtf : Grid h w) (radius : ℕ) : Grid h w :=
  dilate (erode gtf radius) radius

/-- Modelled from the spec: `close(g, r) = erode(dilate(g, r), r)`
(`gtf_impl.filters` absent from the snapshot; named `close_op` to mirror
`open_op`). -/
def close_op (gtf : Grid h w) (radius : ℕ) : Grid h w :=
  erode (dilate gtf radius) radius

end FT

/-- The operation names enumerated by `MorphologicalFilter.INPUT_TYPES`. -/
def allowedOperations : List String := ["dilate", "erode", "open", "close"]

namespace BinaryThreshold

/-- Source `BinaryThreshold.f`:
`thresholded = (gtf >= gtf_threshold).to(torch.float)`.
Broadcasting of a scalar threshold grid is modelled by the caller
expanding it to the shape of `gtf`. -/
def f (gtf gtf_threshold : Grid h w) : Grid h w :=
  fun i j => if fge (gtf i j) (gtf_threshold i j) then FVal.val 1 else FVal.val 0

end BinaryThreshold

namespace MorphologicalFilter

/-- Source `MorphologicalFilter.f`: short-circuit `radius == 0`
to the input itself, otherwise dispatch on the operation string.  The
Python `match` has no default case, so an unknown operation falls through
and the following `return (filtered, )` raises `UnboundLocalError` on the
never-assigned local `filtered`. -/
def f (gtf : Grid h w) (operation : String) (radius : ℕ) : Except PyErr (Grid h w) :=
  if radius = 0 then Except.ok gtf
  else
    match operation with
    | "dilate" => Except.ok (FT.dilate gtf radius)
    | "erode" => Except.ok (FT.erode gtf radius)
    | "open" => Except.ok (FT.open_op gtf radius)
    | "close" => Except.ok (FT.close_op gtf radius)
    | _ => Except.error (PyErr.unboundLocalError "filtered")

end MorphologicalFilter

namespace FT

/-- One pass of the hysteresis flood fill: a pixel is kept if it was
already kept, or if it is weak and adjacent to an already-kept pixel. -/
def hstep (n : ℕ) (adj : Fin n → Fin n → Bool) (weak : Fin n → Bool)
    (cur : Fin n → Bool) : Fin n → Bool :=
  fun p => cur p || (weak p && (List.finRange n).any (fun q => adj p q && cur q))

/-- Modelled from the spec: `hysteresis_threshold(weak_mask, strong_mask)`
of `gtf_impl.filters` (module absent from the snapshot): an iterative
flood fill seeded at the strong pixels, expanding through weak pixels,
converging when a pass adds no pixel — here iterated `n` times, a bound
by total pixel count after which a fixed point has been reached.  The
pixel set is flattened to `Fin n`; the connectivity is the adjacency
relation `adj` (the spec leaves 4- versus 8-connectivity open). -/
def hysteresis_threshold (n : ℕ) (adj : Fin n → Fin n → Bool)
    (weak strong : Fin n → Bool) : Fin n → Bool :=
  (hstep n adj weak)^[n] strong

end FT

/-- A pixel is connected to the strong seed set: either it is strong, or
it is weak and adjacent to a connected pixel (a path of weak pixels ending
at a strong pixel). -/
inductive HConn (n : ℕ) (adj : Fin n → Fin n → Bool) (weak strong : Fin n → Bool) :
    Fin n → Prop where
  | base (p : Fin n) : strong p = true → HConn n adj weak strong p
  | step (p q : Fin n) : weak p = true → adj p q = true →
      HConn n adj weak strong q → HConn n adj weak strong p

/-- A grid of exact (NaN-free) values, flattened over all four axes, used
for the global-extrema filters.  A nonempty size `n + 1` keeps the global
maximum and minimum well defined. -/
def QGrid (n : ℕ) : Type := Fin (n + 1) → ℚ

/-- The global maximum of a `QGrid`. -/
def gmax (g : QGrid n) : ℚ :=
  Finset.sup' Finset.univ ⟨0, Finset.mem_univ 0⟩ g

/-- The global minimum of a `QGrid`. -/
def gmin (g : QGrid n) : ℚ :=
  Finset.inf' Finset.univ ⟨0, Finset.mem_univ 0⟩ g

namespace U

/-- Modelled from the spec: `invert` of `gtf_impl.utils` (module absent
from the snapshot): `g' = (max_val + min_val) - g` with `max_val`/`min_val`
the global extrema of `g`. -/
def invert (g : QGrid n) : QGrid n :=
  fun i => (gmax g + gmin g) - g i

end U

namespace Invert

/-- Source `Invert.f`: `inverted = U.invert(gtf)`. -/
def f (gtf : QGrid n) : QGrid n :=
  U.invert gtf

end Invert

/-- The constraint dictionary attached to an `INT` node input:
`min`, `max` and `default` entries, each optional. -/
structure IntConstraint where
  min : Option ℤ
  max : Option ℤ
  default : Option ℤ
deriving DecidableEq

/-- A radius value passes the declared constraint when it is at or above
the declared `min` and at or below the declared `max` (absent bounds do
not constrain). -/
def IntConstraint.accepts (c : IntConstraint) (r : ℤ) : Bool :=
  (match c.min with
   | none => true
   | some m => decide (m ≤ r)) &&
  (match c.max with
   | none => true
   | some m => decide (r ≤ m))

/-- Source `FilterRadiusBase.INPUT_TYPES` declares
`"radius": ("INT", \x7b"min": 0, "default": 1\x7d)`. -/
def FilterRadiusBase.radiusConstraint : IntConstraint :=
  ⟨some 0, none, some 1⟩

/-- Source `MinFilter` inherits `INPUT_TYPES` from `FilterRadiusBase` unchanged. -/
def MinFilter.radiusConstraint : IntConstraint :=
  FilterRadiusBase.radiusConstraint

/-- Source `MaxFilter` inherits `INPUT_TYPES` from `FilterRadiusBase` unchanged. -/
def MaxFilter.radiusConstraint : IntConstraint :=
  FilterRadiusBase.radiusConstraint

/-- Source `MedianFilter` inherits `INPUT_TYPES` from `FilterRadiusBase` unchanged. -/
def MedianFilter.radiusConstraint : IntConstraint :=
  FilterRadiusBase.radiusConstraint

/-- Source `PatchRangeNormalize` inherits `INPUT_TYPES` from `FilterRadiusBase`
unchanged. -/
def PatchRangeNormalize.radiusConstraint : IntConstraint :=
  FilterRadiusBase.radiusConstraint

/-- Source `MorphologicalFilter.INPUT_TYPES` declares
`"radius": ("INT", \x7b"default": 3, "min": 1\x7d)`. -/
def MorphologicalFilter.radiusConstraint : IntConstraint :=
  ⟨some 1, none, some 3⟩

/-- A grid tensor together with its Python object identity, used to model
aliasing: torch operations allocate a result object with a fresh identity,
while `return (gtf, )` passes the input object through unchanged. -/
structure GTensor (h w : ℕ) where
  objId : ℕ
  data : Grid h w

namespace RefModel

/-- Source `MorphologicalFilter.f` at the object level: the `radius == 0`
short-circuit returns the very input object; every other arm returns the
freshly allocated result of a torch-backed filter, modelled by the fresh
object identity `fresh` supplied by the allocator. -/
def morphF (fresh : ℕ) (t : GTensor h w) (operation : String) (radius : ℕ) :
    Except PyErr (GTensor h w) :=
  if radius = 0 then Except.ok t
  else
    match operation with
    | "dilate" => Except.ok ⟨fresh, FT.dilate t.data radius⟩
    | "erode" => Except.ok ⟨fresh, FT.erode t.data radius⟩
    | "open" => Except.ok ⟨fresh, FT.open_op t.data radius⟩
    | "close" => Except.ok ⟨fresh, FT.close_op t.data radius⟩
    | _ => Except.error (PyErr.unboundLocalError "filtered")

/-- Source `BinaryThreshold.f` at the object level: `.to(torch.float)` always
allocates a new tensor object. -/
def binaryThresholdF (fresh : ℕ) (t tthr : GTensor h w) : GTensor h w :=
  ⟨fresh, BinaryThreshold.f t.data tthr.data⟩

end RefModel

/-! ## Concrete grids used by witnesses and counterexamples -/

/-- A 1×1 grid holding a NaN. -/
def nanGrid : Grid 1 1 := fun _ _ => FVal.nan

/-- A 1×1 grid holding the value 0. -/
def valGrid : Grid 1 1 := fun _ _ => FVal.val 0

/-- A 1×1 tensor object with object identity 0 and value 0. -/
def tensor0 : GTensor 1 1 := ⟨0, fun _ _ => FVal.val 0⟩

/-! ## Claim theorems -/

/-- Claim C1: for every grid and every operation name in
\x7bdilate, erode, open, close\x7d, the morphological filter at radius 0
returns the input grid itself, unchanged, via the explicit `radius == 0`
short-circuit — exact equality, so NaN payloads pass through bit-for-bit. -/
theorem C1_morph_radius_zero_identity (h w : ℕ) (g : Grid h w) (op : String)
    (_hop : op ∈ allowedOperations) :
    MorphologicalFilter.f g op 0 = Except.ok g := by
  simp [MorphologicalFilter.f]

/-- Witness for C1 at a concrete NaN-valued grid and the operation
`dilate`. -/
theorem C1_witness :
    "dilate" ∈ allowedOperations ∧
      MorphologicalFilter.f nanGrid "dilate" 0 = Except.ok nanGrid :=
  ⟨by decide, C1_morph_radius_zero_identity 1 1 nanGrid "dilate" (by decide)⟩

/-- Counterexample to claim C2: at the unknown operation name `"foo"` and
radius 1, the morphological filter fails with an `UnboundLocalError` on
the local `filtered` (the Python `match` has no default case), not with an
`InvalidArgument` error naming the allowed set. -/
theorem C2_counterexample :
    MorphologicalFilter.f valGrid "foo" 1 =
        Except.error (PyErr.unboundLocalError "filtered") ∧
      ∀ msg, MorphologicalFilter.f valGrid "foo" 1 ≠
        Except.error (PyErr.invalidArgument msg) := by
  refine ⟨rfl, ?_⟩
  intro msg hmsg
  rw [show MorphologicalFilter.f valGrid "foo" 1 =
      Except.error (PyErr.unboundLocalError "filtered") from rfl] at hmsg
  injection hmsg with hpe
  exact PyErr.noConfusion hpe

/-- Claim C2 as amended: for every grid, every radius at least 1 and every
operation name outside the allowed set, the morphological filter fails —
but with an `UnboundLocalError` on the never-assigned local `filtered`
(the non-exhaustive `match` falls through), not with an `InvalidArgument`
error naming the allowed set. -/
theorem C2_unknown_operation_error (h w : ℕ) (g : Grid h w) (op : String)
    (r : ℕ) (hr : 1 ≤ r) (hop : op ∉ allowedOperations) :
    MorphologicalFilter.f g op r =
      Except.error (PyErr.unboundLocalError "filtered") := by
  unfold MorphologicalFilter.f
  rw [if_neg (by omega)]
  simp only [allowedOperations, List.mem_cons, List.not_mem_nil, or_false,
    not_or] at hop
  obtain ⟨h1, h2, h3, h4⟩ := hop
  split <;> simp_all

/-- Witness for the amended C2 at the concrete operation `"foo"` and
radius 1. -/
theorem C2_witness :
    1 ≤ 1 ∧ "foo" ∉ allowedOperations ∧
      MorphologicalFilter.f valGrid "foo" 1 =
        Except.error (PyErr.unboundLocalError "filtered") :=
  ⟨le_refl 1, by decide,
    C2_unknown_operation_error 1 1 valGrid "foo" 1 (le_refl 1) (by decide)⟩

/-- Claim C3: `binary_threshold` outputs exactly 1.0 where the torch
comparison `g >= t` holds, exactly 0.0 elsewhere, and every output
element is exactly 0.0 or 1.0. -/
theorem C3_binary_threshold_elementwise (h w : ℕ) (g t : Grid h w)
    (i : Fin h) (j : Fin w) :
    (BinaryThreshold.f g t i j = FVal.val 1 ↔ fge (g i j) (t i j) = true) ∧
      (BinaryThreshold.f g t i j = FVal.val 0 ↔ fge (g i j) (t i j) = false) ∧
      (BinaryThreshold.f g t i j = FVal.val 0 ∨
        BinaryThreshold.f g t i j = FVal.val 1) := by
  cases hb : fge (g i j) (t i j) <;> simp [BinaryThreshold.f, hb]

/-- Counterexample to claim C4: self-thresholding a grid that holds a NaN
does not give 1.0 there — the NaN element compares `>=` false against
itself, so the output is exactly 0.0, not 1.0. -/
theorem C4_counterexample :
    BinaryThreshold.f nanGrid nanGrid 0 0 = FVal.val 0 ∧
      BinaryThreshold.f nanGrid nanGrid 0 0 ≠ FVal.val 1 := by
  decide

/-- Claim C4 as amended: for every grid with no NaN element, thresholding
the grid against itself yields the all-ones grid. -/
theorem C4_self_threshold_all_ones (h w : ℕ) (g : Grid h w)
    (hg : ∀ i j, g i j ≠ FVal.nan) (i : Fin h) (j : Fin w) :
    BinaryThreshold.f g g i j = FVal.val 1 := by
  rcases hv : g i j with _ | a
  · exact absurd hv (hg i j)
  · simp [BinaryThreshold.f, hv, fge]

/-- Witness for the amended C4 at a concrete NaN-free grid. -/
theorem C4_witness :
    (∀ i j, valGrid i j ≠ FVal.nan) ∧
      BinaryThreshold.f valGrid valGrid 0 0 = FVal.val 1 :=
  ⟨by decide, C4_self_threshold_all_ones 1 1 valGrid (by decide) 0 0⟩

/-- Counterexample to claim C6: the morphological filter's declared radius
constraint has minimum 1, not 0, and the declared constraint rejects
radius 0. -/
theorem C6_counterexample :
    MorphologicalFilter.radiusConstraint.min ≠ some 0 ∧
      MorphologicalFilter.radiusConstraint.accepts 0 = false := by
  decide

/-- Claim C6 as amended: the four patch filters share the radius
constraint of `FilterRadiusBase`, whose declared minimum is 0 and which
accepts exactly the radii ≥ 0; the morphological filter instead declares
minimum 1 and accepts exactly the radii ≥ 1, rejecting radius 0 (even
though its implementation would short-circuit radius 0 to the identity). -/
theorem C6_radius_constraints :
    FilterRadiusBase.radiusConstraint.min = some 0 ∧
      MinFilter.radiusConstraint = FilterRadiusBase.radiusConstraint ∧
      MaxFilter.radiusConstraint = FilterRadiusBase.radiusConstraint ∧
      MedianFilter.radiusConstraint = FilterRadiusBase.radiusConstraint ∧
      PatchRangeNormalize.radiusConstraint = FilterRadiusBase.radiusConstraint ∧
      (∀ r : ℤ, FilterRadiusBase.radiusConstraint.accepts r = true ↔ 0 ≤ r) ∧
      MorphologicalFilter.radiusConstraint.min = some 1 ∧
      (∀ r : ℤ, MorphologicalFilter.radiusConstraint.accepts r = true ↔ 1 ≤ r) := by
  refine ⟨rfl, rfl, rfl, rfl, rfl, ?_, rfl, ?_⟩ <;>
    · intro r
      simp [IntConstraint.accepts, FilterRadiusBase.radiusConstraint,
        MorphologicalFilter.radiusConstraint]

/-- Claim C7: for every grid and radius at least 1, the morphological
filter's `open` branch returns dilation of erosion, and its `close`
branch returns erosion of dilation. -/
theorem C7_open_close_composition (h w : ℕ) (g : Grid h w) (r : ℕ)
    (hr : 1 ≤ r) :
    MorphologicalFilter.f g "open" r =
        Except.ok (FT.dilate (FT.erode g r) r) ∧
      MorphologicalFilter.f g "close" r =
        Except.ok (FT.erode (FT.dilate g r) r) := by
  have hr0 : ¬ r = 0 := by omega
  constructor <;>
    · unfold MorphologicalFilter.f
      rw [if_neg hr0]
      rfl

/-- Witness for C7 at a concrete 1×1 grid and radius 1. -/
theorem C7_witness :
    1 ≤ 1 ∧
      (MorphologicalFilter.f valGrid "open" 1 =
          Except.ok (FT.dilate (FT.erode valGrid 1) 1) ∧
        MorphologicalFilter.f valGrid "close" 1 =
          Except.ok (FT.erode (FT.dilate valGrid 1) 1)) :=
  ⟨le_refl 1, C7_open_close_composition 1 1 valGrid 1 (le_refl 1)⟩

/-- Counterexample to claim C5: the morphological filter at radius 0 does
not return a newly allocated grid distinct from its input object — the
`return (gtf, )` short-circuit returns the very input object (identity 0
here), ignoring the fresh identity 1 the allocator offers. -/
theorem C5_counterexample :
    RefModel.morphF 1 tensor0 "dilate" 0 = Except.ok tensor0 ∧
      tensor0.objId = 0 := by
  exact ⟨rfl, rfl⟩

/-- Claim C5 as amended: filters do not mutate their inputs, and the
modelled filters return freshly allocated grids — except the
morphological filter at radius 0, which returns its input grid object
itself, unchanged.  At radius ≥ 1 with an allowed operation the
morphological result carries a fresh object identity distinct from the
input's, as does every binary-threshold result. -/
theorem C5_fresh_allocation_except_radius_zero (h w : ℕ) (fresh : ℕ)
    (t tthr : GTensor h w) (op : String) (r : ℕ)
    (hfresh : fresh ≠ t.objId) (hop : op ∈ allowedOperations) :
    RefModel.morphF fresh t op 0 = Except.ok t ∧
      (1 ≤ r → ∀ res, RefModel.morphF fresh t op r = Except.ok res →
        res.objId ≠ t.objId) ∧
      (RefModel.binaryThresholdF fresh t tthr).objId ≠ t.objId := by
  refine ⟨by simp [RefModel.morphF], ?_, ?_⟩
  · intro hr res hres
    have hr0 : ¬ r = 0 := by omega
    unfold RefModel.morphF at hres
    rw [if_neg hr0] at hres
    simp only [allowedOperations, List.mem_cons, List.not_mem_nil,
      or_false] at hop
    rcases hop with rfl | rfl | rfl | rfl <;>
      · injection hres with hres
        rw [show res.objId = fresh from congrArg GTensor.objId hres.symm]
        exact hfresh
  · exact hfresh

/-- Witness for the amended C5 at a concrete tensor object with identity
0 and fresh identity 1. -/
theorem C5_witness :
    (1 : ℕ) ≠ tensor0.objId ∧ "dilate" ∈ allowedOperations ∧
      (RefModel.morphF 1 tensor0 "dilate" 0 = Except.ok tensor0 ∧
        (1 ≤ 1 → ∀ res, RefModel.morphF 1 tensor0 "dilate" 1 = Except.ok res →
          res.objId ≠ tensor0.objId) ∧
        (RefModel.binaryThresholdF 1 tensor0 tensor0).objId ≠ tensor0.objId) :=
  ⟨by decide, by decide,
    C5_fresh_allocation_except_radius_zero 1 1 1 tensor0 tensor0 "dilate" 1
      (by decide) (by decide)⟩

/-- Claim C10: a NaN element of the input grid never compares `>=` true
against any threshold, so `binary_threshold` outputs exactly 0.0 at every
NaN position. -/
theorem C10_nan_threshold_suppressed (h w : ℕ) (g t : Grid h w)
    (i : Fin h) (j : Fin w) (hnan : g i j = FVal.nan) :
    BinaryThreshold.f g t i j = FVal.val 0 := by
  cases htj : t i j <;> simp [BinaryThreshold.f, hnan, htj, fge]

/-- Witness for C10 at a concrete grid holding NaN, thresholded against
itself. -/
theorem C10_witness :
    nanGrid 0 0 = FVal.nan ∧
      BinaryThreshold.f nanGrid nanGrid 0 0 = FVal.val 0 :=
  ⟨rfl, C10_nan_threshold_suppressed 1 1 nanGrid nanGrid 0 0 rfl⟩

/-! ## Helper lemmas for hysteresis thresholding -/

/-- One flood-fill pass never drops a kept pixel. -/
lemma hstep_infl (n : ℕ) (adj : Fin n → Fin n → Bool) (weak cur : Fin n → Bool)
    (p : Fin n) (hp : cur p = true) : FT.hstep n adj weak cur p = true := by
  simp [FT.hstep, hp]

/-- Pixels kept after `k` passes are still kept after `m ≥ k` passes. -/
lemma iterate_mono (n : ℕ) (adj : Fin n → Fin n → Bool)
    (weak strong : Fin n → Bool) (k m : ℕ) (hkm : k ≤ m) (p : Fin n)
    (hp : (FT.hstep n adj weak)^[k] strong p = true) :
    (FT.hstep n adj weak)^[m] strong p = true := by
  induction m, hkm using Nat.le_induction with
  | base => exact hp
  | succ m _ ih =>
      rw [Function.iterate_succ_apply']
      exact hstep_infl n adj weak _ p ih

/-- Soundness of the flood fill: every pixel kept after any number of
passes is connected to the strong seed set through weak pixels. -/
lemma iterate_sound (n : ℕ) (adj : Fin n → Fin n → Bool)
    (weak strong : Fin n → Bool) :
    ∀ (k : ℕ) (p : Fin n), (FT.hstep n adj weak)^[k] strong p = true →
      HConn n adj weak strong p := by
  intro k
  induction k with
  | zero =>
      intro p hp
      exact HConn.base p hp
  | succ k ih =>
      intro p hp
      rw [Function.iterate_succ_apply'] at hp
      unfold FT.hstep at hp
      rw [Bool.or_eq_true] at hp
      rcases hp with hp | hp
      · exact ih p hp
      · rw [Bool.and_eq_true] at hp
        obtain ⟨hweak, hany⟩ := hp
        rw [List.any_eq_true] at hany
        obtain ⟨q, _, hq⟩ := hany
        rw [Bool.and_eq_true] at hq
        exact HConn.step p q hweak hq.1 (ih q hq.2)

/-- Completeness with fuel: a connected pixel is kept after some number
of passes. -/
lemma hconn_iterate (n : ℕ) (adj : Fin n → Fin n → Bool)
    (weak strong : Fin n → Bool) (p : Fin n)
    (h : HConn n adj weak strong p) :
    ∃ k, (FT.hstep n adj weak)^[k] strong p = true := by
  induction h with
  | base p hp => exact ⟨0, hp⟩
  | step p q hweak hadj _ ih =>
      obtain ⟨k, hk⟩ := ih
      refine ⟨k + 1, ?_⟩
      rw [Function.iterate_succ_apply']
      have hany : (List.finRange n).any
          (fun q2 => adj p q2 && (FT.hstep n adj weak)^[k] strong q2) = true := by
        rw [List.any_eq_true]
        exact ⟨q, List.mem_finRange q, by rw [hadj, hk]; rfl⟩
      simp [FT.hstep, hweak, hany]

/-- The set of pixels kept after `k` flood-fill passes. -/
def keptSet (n : ℕ) (adj : Fin n → Fin n → Bool) (weak strong : Fin n → Bool)
    (k : ℕ) : Finset (Fin n) :=
  Finset.univ.filter (fun p => (FT.hstep n adj weak)^[k] strong p = true)

/-- Kept sets grow along the iteration. -/
lemma keptSet_subset (n : ℕ) (adj : Fin n → Fin n → Bool)
    (weak strong : Fin n → Bool) (k : ℕ) :
    keptSet n adj weak strong k ⊆ keptSet n adj weak strong (k + 1) := by
  intro p hp
  rw [keptSet, Finset.mem_filter] at hp ⊢
  exact ⟨hp.1, iterate_mono n adj weak strong k (k + 1) (by omega) p hp.2⟩

/-- Within the first `n` passes the flood fill reaches a fixed point:
otherwise the kept set would grow strictly more than `n` times inside a
pixel set of size `n`. -/
lemma exists_fixpoint (n : ℕ) (adj : Fin n → Fin n → Bool)
    (weak strong : Fin n → Bool) :
    ∃ k ≤ n, FT.hstep n adj weak ((FT.hstep n adj weak)^[k] strong) =
      (FT.hstep n adj weak)^[k] strong := by
  by_contra hcon
  push_neg at hcon
  have hstrict : ∀ k ≤ n, (keptSet n adj weak strong k).card <
      (keptSet n adj weak strong (k + 1)).card := by
    intro k hk
    have hne := hcon k hk
    have hnew : ∃ p, (FT.hstep n adj weak)^[k] strong p = false ∧
        (FT.hstep n adj weak)^[k + 1] strong p = true := by
      by_contra hall
      push_neg at hall
      apply hne
      funext p
      cases hcur : (FT.hstep n adj weak)^[k] strong p with
      | true => exact hstep_infl n adj weak _ p hcur
      | false =>
          have h1 := hall p hcur
          rw [Function.iterate_succ_apply'] at h1
          cases h2 : FT.hstep n adj weak ((FT.hstep n adj weak)^[k] strong) p with
          | true => exact absurd h2 h1
          | false => rfl
    obtain ⟨p, hpf, hpt⟩ := hnew
    apply Finset.card_lt_card
    rw [Finset.ssubset_iff_of_subset (keptSet_subset n adj weak strong k)]
    refine ⟨p, ?_, ?_⟩
    · rw [keptSet, Finset.mem_filter]
      exact ⟨Finset.mem_univ p, hpt⟩
    · rw [keptSet, Finset.mem_filter]
      intro hmem
      rw [hmem.2] at hpf
      exact Bool.noConfusion hpf
  have hgrow : ∀ k, k ≤ n + 1 → k ≤ (keptSet n adj weak strong k).card := by
    intro k
    induction k with
    | zero => intro _; omega
    | succ k ih =>
        intro hk
        have h1 := ih (by omega)
        have h2 := hstrict k (by omega)
        omega
  have hcard := hgrow (n + 1) (le_refl (n + 1))
  have hle : (keptSet n adj weak strong (n + 1)).card ≤ n := by
    calc (keptSet n adj weak strong (n + 1)).card
        ≤ Finset.univ.card := Finset.card_filter_le _ _
      _ = n := by rw [Finset.card_univ, Fintype.card_fin]
  omega

/-- Completeness of the `n`-pass flood fill: every connected pixel is in
the final output. -/
lemma hconn_output (n : ℕ) (adj : Fin n → Fin n → Bool)
    (weak strong : Fin n → Bool) (p : Fin n)
    (h : HConn n adj weak strong p) :
    FT.hysteresis_threshold n adj weak strong p = true := by
  obtain ⟨k, hk⟩ := hconn_iterate n adj weak strong p h
  obtain ⟨k0, hk0n, hfix⟩ := exists_fixpoint n adj weak strong
  by_cases hkn : k ≤ n
  · exact iterate_mono n adj weak strong k n hkn p hk
  · have heq : (FT.hstep n adj weak)^[k] strong =
        (FT.hstep n adj weak)^[k0] strong := by
      have hsplit : k = (k - k0) + k0 := by omega
      rw [hsplit, Function.iterate_add_apply]
      exact Function.iterate_fixed hfix (k - k0)
    rw [heq] at hk
    exact iterate_mono n adj weak strong k0 n hk0n p hk

/-! ## The concrete 1D hysteresis example -/

/-- A 7-pixel 1D strip: pixels are adjacent when their indices differ by
one. -/
def strip7adj : Fin 7 → Fin 7 → Bool :=
  fun i j => decide (i.1 + 1 = j.1) || decide (j.1 + 1 = i.1)

/-- The weak mask \x7b1, 2, 3, 4, 6\x7d of the concrete example. -/
def weak7 : Fin 7 → Bool :=
  fun i => decide (i.1 = 1) || decide (i.1 = 2) || decide (i.1 = 3) ||
    decide (i.1 = 4) || decide (i.1 = 6)

/-- The strong mask \x7b0\x7d of the concrete example. -/
def strong7 : Fin 7 → Bool :=
  fun i => decide (i.1 = 0)

/-- The expected output \x7b0, 1, 2, 3, 4\x7d of the concrete example. -/
def expected7 : Fin 7 → Bool :=
  fun i => decide (i.1 ≤ 4)

/-- Claim C8: the hysteresis threshold keeps exactly the strong pixels
together with the weak pixels connected to a strong pixel through a path
of weak pixels; on the concrete 7-pixel strip with strong seed 0, weak
pixels \x7b1, 2, 3, 4, 6\x7d and a gap at 5, the output is
\x7b0, 1, 2, 3, 4\x7d and pixel 6 is excluded. -/
theorem C8_hysteresis_connectivity (n : ℕ) (adj : Fin n → Fin n → Bool)
    (weak strong : Fin n → Bool) (p : Fin n) :
    (FT.hysteresis_threshold n adj weak strong p = true ↔
        HConn n adj weak strong p) ∧
      (∀ q : Fin 7, FT.hysteresis_threshold 7 strip7adj weak7 strong7 q =
        expected7 q) := by
  refine ⟨⟨?_, ?_⟩, ?_⟩
  · intro hp
    exact iterate_sound n adj weak strong n p hp
  · exact hconn_output n adj weak strong p
  · decide

/-! ## Helper lemmas for the invert filter -/

/-- Subtracting a grid from a constant swaps the global maximum with the
reflected global minimum. -/
lemma gmax_const_sub (c : ℚ) (g : QGrid n) :
    gmax (fun i => c - g i) = c - gmin g := by
  unfold gmax gmin
  apply le_antisymm
  · apply Finset.sup'_le
    intro i _
    have hmin := Finset.inf'_le (s := Finset.univ) g (Finset.mem_univ i)
    linarith
  · obtain ⟨i, _, hi⟩ :=
      Finset.exists_mem_eq_inf' (s := Finset.univ)
        ⟨(0 : Fin (n + 1)), Finset.mem_univ 0⟩ g
    have hsup := Finset.le_sup' (s := Finset.univ)
      (fun i => c - g i) (Finset.mem_univ i)
    rw [hi]
    linarith

/-- Subtracting a grid from a constant swaps the global minimum with the
reflected global maximum. -/
lemma gmin_const_sub (c : ℚ) (g : QGrid n) :
    gmin (fun i => c - g i) = c - gmax g := by
  unfold gmax gmin
  apply le_antisymm
  · obtain ⟨i, _, hi⟩ :=
      Finset.exists_mem_eq_sup' (s := Finset.univ)
        ⟨(0 : Fin (n + 1)), Finset.mem_univ 0⟩ g
    have hinf := Finset.inf'_le (s := Finset.univ)
      (fun i => c - g i) (Finset.mem_univ i)
    rw [hi]
    linarith
  · apply Finset.le_inf'
    intro i _
    have hmax := Finset.le_sup' (s := Finset.univ) g (Finset.mem_univ i)
    linarith

/-- Claim C9: the invert filter satisfies the contract
`g' = (max_val + min_val) - g` with the global extrema of `g`, and is an
involution: inverting twice restores every element exactly. -/
theorem C9_invert_contract_and_involution (n : ℕ) (g : QGrid n) :
    (∀ i, Invert.f g i = (gmax g + gmin g) - g i) ∧
      (∀ i, Invert.f (Invert.f g) i = g i) := by
  constructor
  · intro i
    rfl
  · intro i
    show (gmax (U.invert g) + gmin (U.invert g)) - U.invert g i = g i
    have hmax : gmax (U.invert g) = (gmax g + gmin g) - gmin g :=
      gmax_const_sub (gmax g + gmin g) g
    have hmin : gmin (U.invert g) = (gmax g + gmin g) - gmax g :=
      gmin_const_sub (gmax g + gmin g) g
    have hval : U.invert g i = (gmax g + gmin g) - g i := rfl
    rw [hmax, hmin, hval]
    ring

end GTF
